import Mathlib

/-!
Verification of the websocket handshake-translation core
(`src/websocket/websocket.go` of the cloudflared repository).

The Go code is shallowly embedded: `http.Header` (an unordered map from
canonical MIME keys to lists of values) becomes an association list with
canonicalizing operations, SHA-1 and standard base64 are implemented over
`List Nat` byte sequences, and the gorilla dialer is an explicit function
parameter.  Machine words are `Nat` with reduction modulo `2 ^ 32` where Go
overflows.
-/

namespace WS

/-! ### Bytes and 32-bit words (crypto/sha1) -/

/-- Left-rotation of a 32-bit word, as Go's `bits.RotateLeft32`. -/
def rotl (n x : Nat) : Nat :=
  ((x <<< n) ||| (x >>> (32 - n))) % 4294967296

/-- Big-endian 32-bit words from a byte list, 4 bytes per word
(`binary.BigEndian.Uint32` applied down the block). -/
def toWordsBE : List Nat → List Nat
  | a :: b :: c :: d :: rest =>
      (a * 16777216 + b * 65536 + c * 256 + d) :: toWordsBE rest
  | _ => []

/-- Big-endian bytes of one 32-bit word (`binary.BigEndian.PutUint32`). -/
def w4 (v : Nat) : List Nat :=
  [v >>> 24 % 256, v >>> 16 % 256, v >>> 8 % 256, v % 256]

/-- Big-endian bytes of the 64-bit message bit length used by SHA-1 padding. -/
def lenBytes64 (v : Nat) : List Nat :=
  [v >>> 56 % 256, v >>> 48 % 256, v >>> 40 % 256, v >>> 32 % 256,
   v >>> 24 % 256, v >>> 16 % 256, v >>> 8 % 256, v % 256]

/-- SHA-1 padding: append `0x80`, zero bytes up to 56 mod 64, then the
64-bit big-endian bit length (FIPS 180-4, as in Go's `crypto/sha1`). -/
def padMessage (msg : List Nat) : List Nat :=
  msg ++ [128] ++ List.replicate ((119 - msg.length % 64) % 64) 0
      ++ lenBytes64 (msg.length * 8)

/-- Split into 64-byte blocks; `fuel` bounds the recursion and is
instantiated with the list length, which always suffices. -/
def chunksF : Nat → List Nat → List (List Nat)
  | 0, _ => []
  | _, [] => []
  | fuel + 1, l => l.take 64 :: chunksF fuel (l.drop 64)

/-- The 64-byte blocks of a (padded) message. -/
def chunks64 (l : List Nat) : List (List Nat) := chunksF l.length l

/-- Message-schedule extension, working on the reversed word list so the
words `w[i-3]`, `w[i-8]`, `w[i-14]`, `w[i-16]` are at fixed offsets. -/
def scheduleRev : Nat → List Nat → List Nat
  | 0, ws => ws
  | n + 1, ws =>
      let v := rotl 1 (ws.getD 2 0 ^^^ ws.getD 7 0 ^^^ ws.getD 13 0 ^^^ ws.getD 15 0)
      scheduleRev n (v :: ws)

/-- Extend 16 schedule words to 80 (`w[i] = rotl1 (w[i-3]^w[i-8]^w[i-14]^w[i-16])`). -/
def schedule (w16 : List Nat) : List Nat :=
  (scheduleRev 64 w16.reverse).reverse

/-- SHA-1 working state `(a, b, c, d, e)`. -/
abbrev Sha1State := Nat × Nat × Nat × Nat × Nat

/-- One of the 80 SHA-1 rounds; `i` selects the round function and constant. -/
def sha1Round (st : Sha1State) (iw : Nat × Nat) : Sha1State :=
  let a := st.1; let b := st.2.1; let c := st.2.2.1
  let d := st.2.2.2.1; let e := st.2.2.2.2
  let i := iw.1; let w := iw.2
  let f :=
    if i < 20 then (b &&& c) ||| ((b ^^^ 4294967295) &&& d)
    else if i < 40 then b ^^^ c ^^^ d
    else if i < 60 then (b &&& c) ||| (b &&& d) ||| (c &&& d)
    else b ^^^ c ^^^ d
  let k :=
    if i < 20 then 1518500249
    else if i < 40 then 1859775393
    else if i < 60 then 2400959708
    else 3395469782
  let temp := (rotl 5 a + f + e + k + w) % 4294967296
  (temp, a, rotl 30 b, c, d)

/-- Compress one 64-byte block into the running hash value. -/
def processChunk (h : Sha1State) (chunk : List Nat) : Sha1State :=
  let st := (schedule (toWordsBE chunk)).enum.foldl sha1Round h
  ((h.1 + st.1) % 4294967296,
   (h.2.1 + st.2.1) % 4294967296,
   (h.2.2.1 + st.2.2.1) % 4294967296,
   (h.2.2.2.1 + st.2.2.2.1) % 4294967296,
   (h.2.2.2.2 + st.2.2.2.2) % 4294967296)

/-- SHA-1 initial hash value. -/
def initH : Sha1State :=
  (1732584193, 4023233417, 2562383102, 271733878, 3285377520)

/-- Big-endian bytes of the five final hash words: the 20-byte digest. -/
def wordsToBytes (st : Sha1State) : List Nat :=
  w4 st.1 ++ w4 st.2.1 ++ w4 st.2.2.1 ++ w4 st.2.2.2.1 ++ w4 st.2.2.2.2

/-- The SHA-1 digest of a byte sequence (Go's `sha1.Sum`). -/
def sha1 (msg : List Nat) : List Nat :=
  wordsToBytes ((chunks64 (padMessage msg)).foldl processChunk initH)

/-! ### Standard base64 (encoding/base64 StdEncoding) -/

/-- The standard base64 alphabet. -/
def base64Chars : List Char :=
  "ABCDEFGHIJKLMNOPQRSTUVWXYZabcdefghijklmnopqrstuvwxyz0123456789+/".data

/-- The alphabet character for a 6-bit value. -/
def b64Char (n : Nat) : Char := base64Chars.getD n 'A'

/-- Standard base64 encoding of a byte list, with `=` padding. -/
def base64Encode : List Nat → List Char
  | [] => []
  | [a] => [b64Char (a >>> 2), b64Char ((a &&& 3) <<< 4), '=', '=']
  | [a, b] => [b64Char (a >>> 2), b64Char (((a &&& 3) <<< 4) ||| (b >>> 4)),
               b64Char ((b &&& 15) <<< 2), '=']
  | a :: b :: c :: rest =>
      b64Char (a >>> 2) :: b64Char (((a &&& 3) <<< 4) ||| (b >>> 4)) ::
      b64Char (((b &&& 15) <<< 2) ||| (c >>> 6)) :: b64Char (c &&& 63) ::
      base64Encode rest

/-- `base64.StdEncoding.EncodeToString` on a byte list. -/
def base64String (l : List Nat) : String := String.mk (base64Encode l)

/-! ### Strings as UTF-8 byte sequences (io.WriteString semantics) -/

/-- UTF-8 encoding of one code point. -/
def utf8Bytes (c : Nat) : List Nat :=
  if c < 128 then [c]
  else if c < 2048 then [192 ||| (c >>> 6), 128 ||| (c &&& 63)]
  else if c < 65536 then
    [224 ||| (c >>> 12), 128 ||| ((c >>> 6) &&& 63), 128 ||| (c &&& 63)]
  else
    [240 ||| (c >>> 18), 128 ||| ((c >>> 12) &&& 63),
     128 ||| ((c >>> 6) &&& 63), 128 ||| (c &&& 63)]

/-- The UTF-8 bytes of a string, as Go's `io.WriteString` writes them. -/
def strBytes (s : String) : List Nat :=
  (s.data.map (fun c => utf8Bytes c.toNat)).flatten

/-- `sha1Base64` sha1 and then base64 encodes `str` (websocket.go line 72). -/
def sha1Base64 (str : String) : String :=
  base64String (sha1 (strBytes str))

/-- The RFC6455 magic GUID appended to the client nonce. -/
def magicGUID : String := "258EAFA5-E914-47DA-95CA-C5AB0DC85B11"

/-- The accept token as a function of the nonce string: the body of
`generateAcceptKey` with the header lookup result abstracted. -/
def acceptKeyOfNonce (key : String) : String :=
  sha1Base64 (key ++ magicGUID)

/-! ### net/http Header: a map from canonical MIME keys to value lists.
Go maps are unordered; the embedding is an association list with unique
keys, and every operation canonicalizes its key argument exactly as
`textproto.CanonicalMIMEHeaderKey` does.  Raw map indexing (the `for
key, val := range` copy) keeps keys as stored. -/

/-- `validHeaderFieldByte`: HTTP token characters. -/
def isTokenChar (c : Char) : Bool :=
  let n := c.toNat
  (48 ≤ n && n ≤ 57) || (65 ≤ n && n ≤ 90) || (97 ≤ n && n ≤ 122) ||
  [33, 35, 36, 37, 38, 39, 42, 43, 45, 46, 94, 95, 96, 124, 126].contains n

/-- ASCII upper-casing of one character (others unchanged). -/
def upChar (c : Char) : Char :=
  if 97 ≤ c.toNat && c.toNat ≤ 122 then Char.ofNat (c.toNat - 32) else c

/-- ASCII lower-casing of one character (others unchanged). -/
def downChar (c : Char) : Char :=
  if 65 ≤ c.toNat && c.toNat ≤ 90 then Char.ofNat (c.toNat + 32) else c

/-- The canonicalization loop of `canonicalMIMEHeaderKey`: upper-case the
first character and each character following a `-`, lower-case the rest. -/
def canonCore : Bool → List Char → List Char
  | _, [] => []
  | upper, c :: cs =>
      let c' := if upper then upChar c else downChar c
      c' :: canonCore (c' == '-') cs

/-- `textproto.CanonicalMIMEHeaderKey`: keys containing a non-token byte
are returned unchanged, otherwise canonical word capitalization applies. -/
def canonicalKey (s : String) : String :=
  if s.data.all isTokenChar then String.mk (canonCore true s.data) else s

/-- ASCII lower-casing of a whole string (for case-insensitive matching). -/
def lowerStr (s : String) : String := String.mk (s.data.map downChar)

/-- `http.Header`: map from header key to list of values. -/
abbrev Header := List (String × List String)

/-- Raw map indexing `h[k]` without canonicalization. -/
def Header.lookupRaw (h : Header) (k : String) : Option (List String) :=
  (h.find? (fun p => p.1 == k)).map (fun p => p.2)

/-- Remove every entry stored under exactly key `k` (map `delete`). -/
def Header.filterKey (h : Header) (k : String) : Header :=
  h.filter (fun p => p.1 != k)

/-- `h[CanonicalMIMEHeaderKey(k)]`. -/
def Header.getValues (h : Header) (k : String) : Option (List String) :=
  Header.lookupRaw h (canonicalKey k)

/-- `Header.Get`: first value stored under the canonical key, else `""`. -/
def Header.get (h : Header) (k : String) : String :=
  match Header.getValues h k with
  | some (v :: _) => v
  | _ => ""

/-- `Header.Set`: `h[CanonicalMIMEHeaderKey(k)] = []string{v}`. -/
def Header.set (h : Header) (k v : String) : Header :=
  Header.filterKey h (canonicalKey k) ++ [(canonicalKey k, [v])]

/-- `Header.Del`: `delete(h, CanonicalMIMEHeaderKey(k))`. -/
def Header.del (h : Header) (k : String) : Header :=
  Header.filterKey h (canonicalKey k)

/-- `Header.Add`: `h[ck] = append(h[ck], v)` with `ck` canonical. -/
def Header.add (h : Header) (k v : String) : Header :=
  let ck := canonicalKey k
  if h.any (fun p => p.1 == ck) then
    h.map (fun p => if p.1 == ck then (p.1, p.2 ++ [v]) else p)
  else h ++ [(ck, [v])]

/-! ### Requests, responses and the dialer -/

/-- The parts of `url.URL` this code touches. -/
structure URL where
  scheme : String
  host : String
  path : String
deriving DecidableEq

/-- Opaque stand-in for an established `websocket.Conn`. -/
abbrev Conn := Nat

/-- The part of `http.Response` this code touches. -/
structure Response where
  header : Header
deriving DecidableEq

/-- The triple returned by gorilla's `Dialer.Dial`. -/
structure DialResult where
  conn : Option Conn
  response : Option Response
  err : Option String
deriving DecidableEq

/-- A dialer is an opaque external function from the (rewritten) URL and
the outbound headers to a dial result. -/
abbrev Dialer := URL → Header → DialResult

/-- The parts of `http.Request` this code touches. -/
structure Request where
  url : URL
  host : String
  header : Header
deriving DecidableEq

/-! ### The functions of websocket.go -/

/-- The fixed list of headers gorilla regenerates itself (lines 14-20). -/
def stripWebsocketHeaders : List String :=
  ["Upgrade", "Connection", "Sec-Websocket-Key",
   "Sec-Websocket-Version", "Sec-Websocket-Extensions"]

/-- `websocketHeaders` (lines 58-69): copy the request headers, delete the
strip list, then set `Host` to the request's host. -/
def websocketHeaders (req : Request) : Header :=
  let wsHeaders := req.header
  let wsHeaders := stripWebsocketHeaders.foldl Header.del wsHeaders
  Header.set wsHeaders "Host" req.host

/-- `generateAcceptKey` (lines 81-83). -/
def generateAcceptKey (req : Request) : String :=
  sha1Base64 (Header.get req.header "Sec-WebSocket-Key" ++ magicGUID)

/-- `ChangeRequestScheme` (lines 87-98): Go's `switch` as an equality chain. -/
def ChangeRequestScheme (reqURL : URL) : String :=
  if reqURL.scheme = "https" then "wss"
  else if reqURL.scheme = "http" then "ws"
  else if reqURL.scheme = "" then "ws"
  else reqURL.scheme

/-- The in-place mutation `req.URL.Scheme = ChangeRequestScheme(req.URL)`
(line 31), as a function on the request. -/
def translateRequest (req : Request) : Request :=
  { req with url := { req.url with scheme := ChangeRequestScheme req.url } }

/-- `NewResponseHeader` (lines 47-53). -/
def NewResponseHeader (req : Request) : Header :=
  let header : Header := []
  let header := Header.add header "Connection" "Upgrade"
  let header := Header.add header "Sec-Websocket-Accept" (generateAcceptKey req)
  Header.add header "Upgrade" "websocket"

/-- The nil-check of lines 33-37: use the supplied dialer, or the default
environment-proxy dialer when none is supplied. -/
def chosenDial (dialler : Option Dialer) (envDialer : Dialer) : Dialer :=
  match dialler with
  | none => envDialer
  | some d => d

/-- `ClientConnect` (lines 30-44).  `envDialer` stands for the default
`websocket.Dialer{Proxy: http.ProxyFromEnvironment}` built when `dialler`
is nil; either dialer's `Dial` is an opaque external function.  Go mutates
`req.URL.Scheme` in place; the embedding returns the mutated request as
the first component alongside Go's `(conn, response, err)`. -/
def ClientConnect (dialler : Option Dialer) (envDialer : Dialer) (req : Request) :
    Request × Option Conn × Option Response × Option String :=
  let req := translateRequest req
  let wsHeaders := websocketHeaders req
  let dr := chosenDial dialler envDialer req.url wsHeaders
  match dr.err with
  | some e => (req, none, dr.response, some e)
  | none =>
      (req, dr.conn,
       dr.response.map (fun r =>
         { r with header := Header.set r.header "Sec-WebSocket-Accept" (generateAcceptKey req) }),
       none)

/-! ### Upgrade detection (gorilla/websocket, spec-modelled) -/

/-- Split a header value at commas. -/
def splitCommaAux : List Char → List Char → List String
  | [], acc => [String.mk acc.reverse]
  | c :: cs, acc =>
      if c = ',' then String.mk acc.reverse :: splitCommaAux cs []
      else splitCommaAux cs (c :: acc)

/-- The comma-separated pieces of a header value. -/
def splitComma (s : String) : List String := splitCommaAux s.data []

/-- Linear whitespace around a token. -/
def isSpaceChar (c : Char) : Bool := c = ' ' || c = '\t'

/-- Strip leading and trailing linear whitespace. -/
def trimStr (s : String) : String :=
  String.mk (((s.data.dropWhile isSpaceChar).reverse.dropWhile isSpaceChar).reverse)

/-- Whether some comma-separated token of some value of header `k` equals
`v` case-insensitively (`v` given in lower case). -/
def containsToken (h : Header) (k v : String) : Bool :=
  ((Header.getValues h k).getD []).any
    (fun s => (splitComma s).any (fun t => lowerStr (trimStr t) == v))

/-- Modelled from the spec: `IsWebSocketUpgrade` (lines 23-25) delegates to
`websocket.IsWebSocketUpgrade` of the gorilla/websocket dependency, whose
source is not under `src/`.  Per the spec it returns true iff the request's
`Connection` header contains the token `Upgrade` (case-insensitive,
comma-separated token match) and its `Upgrade` header equals `websocket`
(case-insensitive). -/
def IsWebSocketUpgrade (req : Request) : Bool :=
  containsToken req.header "Connection" "upgrade" &&
  lowerStr (Header.get req.header "Upgrade") == "websocket"

/-! ### Helper lemmas on the header map -/

theorem lookupRaw_cons (p : String × List String) (t : Header) (k : String) :
    Header.lookupRaw (p :: t) k =
      if p.1 = k then some p.2 else Header.lookupRaw t k := by
  unfold Header.lookupRaw
  by_cases hpk : p.1 = k
  · rw [List.find?_cons_of_pos _ (by simpa using hpk), if_pos hpk]
    rfl
  · rw [List.find?_cons_of_neg _ (by simpa using hpk), if_neg hpk]

theorem filterKey_cons (p : String × List String) (t : Header) (k : String) :
    Header.filterKey (p :: t) k =
      if p.1 = k then Header.filterKey t k else p :: Header.filterKey t k := by
  unfold Header.filterKey
  by_cases hpk : p.1 = k <;> simp [List.filter_cons, hpk]

theorem lookupRaw_filterKey_self (h : Header) (k : String) :
    Header.lookupRaw (Header.filterKey h k) k = none := by
  induction h with
  | nil => rfl
  | cons p t ih =>
      rw [filterKey_cons]
      by_cases hpk : p.1 = k
      · rw [if_pos hpk]; exact ih
      · rw [if_neg hpk, lookupRaw_cons, if_neg hpk]; exact ih

theorem lookupRaw_filterKey_ne (h : Header) (k k' : String) (hne : k' ≠ k) :
    Header.lookupRaw (Header.filterKey h k) k' = Header.lookupRaw h k' := by
  induction h with
  | nil => rfl
  | cons p t ih =>
      rw [filterKey_cons, lookupRaw_cons]
      by_cases hpk : p.1 = k
      · have hpk' : ¬ p.1 = k' := fun hh => hne (hh.symm.trans hpk)
        rw [if_pos hpk, if_neg hpk']
        exact ih
      · rw [if_neg hpk, lookupRaw_cons]
        by_cases hpk' : p.1 = k'
        · rw [if_pos hpk', if_pos hpk']
        · rw [if_neg hpk', if_neg hpk']
          exact ih

theorem lookupRaw_append_of_none (a b : Header) (k : String)
    (ha : Header.lookupRaw a k = none) :
    Header.lookupRaw (a ++ b) k = Header.lookupRaw b k := by
  induction a with
  | nil => rfl
  | cons p t ih =>
      rw [lookupRaw_cons] at ha
      by_cases hpk : p.1 = k
      · rw [if_pos hpk] at ha
        exact absurd ha (by simp)
      · rw [if_neg hpk] at ha
        rw [List.cons_append, lookupRaw_cons, if_neg hpk]
        exact ih ha

theorem lookupRaw_append_single_ne (a : Header) (k0 k : String) (v : List String)
    (hne : k ≠ k0) :
    Header.lookupRaw (a ++ [(k0, v)]) k = Header.lookupRaw a k := by
  induction a with
  | nil =>
      rw [List.nil_append, lookupRaw_cons, if_neg (fun hh => hne (id hh).symm)]
  | cons p t ih =>
      rw [List.cons_append, lookupRaw_cons, lookupRaw_cons]
      by_cases hpk : p.1 = k
      · rw [if_pos hpk, if_pos hpk]
      · rw [if_neg hpk, if_neg hpk]
        exact ih

theorem get_set (h : Header) (k v : String) :
    Header.get (Header.set h k v) k = v := by
  unfold Header.get Header.getValues Header.set
  rw [lookupRaw_append_of_none _ _ _ (lookupRaw_filterKey_self h (canonicalKey k))]
  simp [Header.lookupRaw, List.find?_cons]

theorem sha1_length (msg : List Nat) : (sha1 msg).length = 20 := by
  simp [sha1, wordsToBytes, w4]

/-! ### Concrete canonicalization facts -/

theorem canonKey_upgrade : canonicalKey "Upgrade" = "Upgrade" := by decide

theorem canonKey_connection : canonicalKey "Connection" = "Connection" := by decide

theorem canonKey_swsKey : canonicalKey "Sec-Websocket-Key" = "Sec-Websocket-Key" := by decide

theorem canonKey_swsVersion :
    canonicalKey "Sec-Websocket-Version" = "Sec-Websocket-Version" := by decide

theorem canonKey_swsExtensions :
    canonicalKey "Sec-Websocket-Extensions" = "Sec-Websocket-Extensions" := by decide

theorem canonKey_host : canonicalKey "Host" = "Host" := by decide

theorem canonKey_getKey : canonicalKey "Sec-WebSocket-Key" = "Sec-Websocket-Key" := by decide

theorem canonKey_accept :
    canonicalKey "Sec-WebSocket-Accept" = "Sec-Websocket-Accept" := by decide

/-! ### Claim theorems -/

set_option maxRecDepth 100000 in
/-- C1: for every nonce string `k` the accept-token computation returns the
base64 encoding of the 20-byte SHA-1 digest of `k` concatenated with the
fixed GUID "258EAFA5-E914-47DA-95CA-C5AB0DC85B11"; it is deterministic; and
on the RFC6455 example nonce "dGhlIHNhbXBsZSBub25jZQ==" it returns
"s3pPLMBiTxaQ9kYGzzhZRbK+xOo=". -/
theorem acceptToken_correct :
    (∀ k : String,
        acceptKeyOfNonce k = base64String (sha1 (strBytes (k ++ magicGUID))) ∧
        (sha1 (strBytes (k ++ magicGUID))).length = 20) ∧
    (∀ k k' : String, k = k' → acceptKeyOfNonce k = acceptKeyOfNonce k') ∧
    acceptKeyOfNonce "dGhlIHNhbXBsZSBub25jZQ==" = "s3pPLMBiTxaQ9kYGzzhZRbK+xOo=" := by
  refine ⟨fun k => ⟨rfl, sha1_length _⟩, fun k k' h => by rw [h], ?_⟩
  decide

/-- Witness for C1 at a concrete nonce. -/
theorem acceptToken_correct_witness :
    acceptKeyOfNonce "x3JJHMbDL1EzLkh9GBhXDw==" = acceptKeyOfNonce "x3JJHMbDL1EzLkh9GBhXDw==" :=
  acceptToken_correct.2.1 "x3JJHMbDL1EzLkh9GBhXDw==" "x3JJHMbDL1EzLkh9GBhXDw==" rfl

/-- C5: the scheme translator maps `https` to `wss`, `http` to `ws`, the
empty scheme to `ws`, and leaves every other scheme unchanged. -/
theorem changeRequestScheme_mapping :
    (∀ u : URL, u.scheme = "https" → ChangeRequestScheme u = "wss") ∧
    (∀ u : URL, u.scheme = "http" → ChangeRequestScheme u = "ws") ∧
    (∀ u : URL, u.scheme = "" → ChangeRequestScheme u = "ws") ∧
    (∀ u : URL, u.scheme ≠ "https" → u.scheme ≠ "http" → u.scheme ≠ "" →
      ChangeRequestScheme u = u.scheme) := by
  refine ⟨fun u h => ?_, fun u h => ?_, fun u h => ?_, fun u h1 h2 h3 => ?_⟩
  · unfold ChangeRequestScheme; rw [h]; decide
  · unfold ChangeRequestScheme; rw [h]; decide
  · unfold ChangeRequestScheme; rw [h]; decide
  · unfold ChangeRequestScheme; rw [if_neg h1, if_neg h2, if_neg h3]

/-- Witness for C5 at concrete URLs covering the whole mapping table. -/
theorem changeRequestScheme_mapping_witness :
    ChangeRequestScheme ⟨"https", "example.com", "/"⟩ = "wss" ∧
    ChangeRequestScheme ⟨"http", "example.com", "/"⟩ = "ws" ∧
    ChangeRequestScheme ⟨"", "example.com", "/"⟩ = "ws" ∧
    ChangeRequestScheme ⟨"ftp", "example.com", "/"⟩ = "ftp" :=
  ⟨changeRequestScheme_mapping.1 _ rfl, changeRequestScheme_mapping.2.1 _ rfl,
   changeRequestScheme_mapping.2.2.1 _ rfl,
   changeRequestScheme_mapping.2.2.2 _ (by decide) (by decide) (by decide)⟩

/-- C7: the response header builder returns exactly the three mandated
entries — `Connection: Upgrade`, `Upgrade: websocket` and
`Sec-Websocket-Accept` carrying the accept token of the request's nonce —
and its output depends only on the request's headers (pure/idempotent). -/
theorem newResponseHeader_exact (req : Request) :
    NewResponseHeader req =
      [("Connection", ["Upgrade"]),
       ("Sec-Websocket-Accept", [generateAcceptKey req]),
       ("Upgrade", ["websocket"])] ∧
    Header.get (NewResponseHeader req) "Connection" = "Upgrade" ∧
    Header.get (NewResponseHeader req) "Upgrade" = "websocket" ∧
    Header.get (NewResponseHeader req) "Sec-Websocket-Accept" = generateAcceptKey req ∧
    (NewResponseHeader req).length = 3 ∧
    ∀ req' : Request, req.header = req'.header →
      NewResponseHeader req = NewResponseHeader req' := by
  refine ⟨rfl, rfl, rfl, rfl, rfl, fun req' hh => ?_⟩
  simp [NewResponseHeader, generateAcceptKey, hh]

/-- Witness for C7: two requests differing everywhere but in the headers
produce identical response headers. -/
theorem newResponseHeader_exact_witness :
    NewResponseHeader ⟨⟨"https", "example.com", "/"⟩, "example.com", []⟩ =
      NewResponseHeader ⟨⟨"http", "other.test", ""⟩, "other.test", []⟩ :=
  (newResponseHeader_exact _).2.2.2.2.2 _ rfl

set_option maxRecDepth 100000 in
/-- C9: when the `Sec-WebSocket-Key` header is absent the builder does not
fail: it returns the three headers with the accept token computed over the
empty nonce, i.e. the base64 SHA-1 of the magic GUID alone, a syntactically
valid 28-character base64 value. -/
theorem newResponseHeader_missing_nonce (req : Request)
    (habs : Header.lookupRaw req.header "Sec-Websocket-Key" = none) :
    generateAcceptKey req = acceptKeyOfNonce "" ∧
    NewResponseHeader req =
      [("Connection", ["Upgrade"]),
       ("Sec-Websocket-Accept", [acceptKeyOfNonce ""]),
       ("Upgrade", ["websocket"])] ∧
    acceptKeyOfNonce "" = "Kfh9QIsMVZcl6xEPYxPHzW8SZ8w=" ∧
    (acceptKeyOfNonce "").length = 28 := by
  have hget : Header.get req.header "Sec-WebSocket-Key" = "" := by
    unfold Header.get Header.getValues
    rw [canonKey_getKey, habs]
  have hkey : generateAcceptKey req = acceptKeyOfNonce "" := by
    unfold generateAcceptKey acceptKeyOfNonce
    rw [hget]
  refine ⟨hkey, ?_, by decide, by decide⟩
  have hlist : NewResponseHeader req =
      [("Connection", ["Upgrade"]),
       ("Sec-Websocket-Accept", [generateAcceptKey req]),
       ("Upgrade", ["websocket"])] := rfl
  rw [hlist, hkey]

/-- Witness for C9 on a request with no `Sec-WebSocket-Key` header. -/
theorem newResponseHeader_missing_nonce_witness :
    generateAcceptKey ⟨⟨"https", "example.com", "/"⟩, "example.com", [("X-Other", ["v"])]⟩ =
      acceptKeyOfNonce "" :=
  (newResponseHeader_missing_nonce _ (by decide)).1

/-- C2 fails as stated: a header stored under the non-canonical key
"UPGRADE" — case-insensitively equal to the excluded name "Upgrade" — is
copied and not removed by the sanitizer, because `Header.Del` only deletes
the canonical-format key. -/
theorem websocketHeaders_case_insensitive_cex :
    Header.lookupRaw
        (websocketHeaders ⟨⟨"https", "example.com", "/"⟩, "example.com",
          [("UPGRADE", ["websocket"])]⟩) "UPGRADE" = some ["websocket"] ∧
    lowerStr "UPGRADE" = lowerStr "Upgrade" ∧
    "Upgrade" ∈ stripWebsocketHeaders := by
  decide

/-- C2 (amended): the sanitizer returns a full copy of the inbound mapping
in which exactly the entries stored under a canonical exclusion-set key are
removed (canonical-key match, not case-insensitive match), and the `Host`
entry is overwritten — not appended — with the supplied host. -/
theorem websocketHeaders_sanitizes (req : Request) :
    (∀ p ∈ websocketHeaders req, p.1 ∉ stripWebsocketHeaders) ∧
    Header.lookupRaw (websocketHeaders req) "Host" = some [req.host] ∧
    Header.get (websocketHeaders req) "Host" = req.host ∧
    (∀ k : String, k ∉ stripWebsocketHeaders → k ≠ "Host" →
      Header.lookupRaw (websocketHeaders req) k = Header.lookupRaw req.header k) := by
  have hw : websocketHeaders req =
      Header.filterKey (Header.filterKey (Header.filterKey (Header.filterKey
        (Header.filterKey (Header.filterKey req.header "Upgrade") "Connection")
        "Sec-Websocket-Key") "Sec-Websocket-Version") "Sec-Websocket-Extensions")
        "Host" ++ [("Host", [req.host])] := by
    unfold websocketHeaders Header.set Header.del
    simp only [stripWebsocketHeaders, List.foldl_cons, List.foldl_nil,
      canonKey_upgrade, canonKey_connection, canonKey_swsKey, canonKey_swsVersion,
      canonKey_swsExtensions, canonKey_host]
  refine ⟨?_, ?_, ?_, ?_⟩
  · intro p hp
    rw [hw] at hp
    simp only [Header.filterKey, List.mem_append, List.mem_filter, bne_iff_ne,
      List.mem_singleton] at hp
    simp only [stripWebsocketHeaders, List.mem_cons, List.not_mem_nil]
    rcases hp with ⟨⟨⟨⟨⟨⟨_, h1⟩, h2⟩, h3⟩, h4⟩, h5⟩, _⟩ | hhost
    · simp [h1, h2, h3, h4, h5]
    · rw [hhost]
      simp
  · rw [hw, lookupRaw_append_of_none _ _ _ (lookupRaw_filterKey_self _ _),
      lookupRaw_cons, if_pos rfl]
  · have hw0 : websocketHeaders req =
        Header.set (List.foldl Header.del req.header stripWebsocketHeaders)
          "Host" req.host := rfl
    rw [hw0]
    exact get_set _ _ _
  · intro k hk hkh
    simp only [stripWebsocketHeaders, List.mem_cons, List.not_mem_nil, or_false,
      not_or] at hk
    obtain ⟨h1, h2, h3, h4, h5⟩ := hk
    rw [hw, lookupRaw_append_single_ne _ _ _ _ hkh,
      lookupRaw_filterKey_ne _ _ _ hkh, lookupRaw_filterKey_ne _ _ _ h5,
      lookupRaw_filterKey_ne _ _ _ h4, lookupRaw_filterKey_ne _ _ _ h3,
      lookupRaw_filterKey_ne _ _ _ h2, lookupRaw_filterKey_ne _ _ _ h1]

/-- Witness for C2 (amended) on a concrete request: a non-excluded custom
header is copied through unchanged. -/
theorem websocketHeaders_sanitizes_witness :
    Header.lookupRaw
        (websocketHeaders ⟨⟨"https", "example.com", "/"⟩, "example.com",
          [("X-Custom", ["v"]), ("Upgrade", ["websocket"])]⟩) "X-Custom" =
      Header.lookupRaw
        ([("X-Custom", ["v"]), ("Upgrade", ["websocket"])] : Header) "X-Custom" :=
  (websocketHeaders_sanitizes _).2.2.2 "X-Custom" (by decide) (by decide)

/-- C3: on a successful dial the connector overwrites the dial response's
`Sec-WebSocket-Accept` header with the accept token computed from the
original inbound request's nonce — independent of whatever the backend
returned in that header — and returns the backend connection, that
response and no error. -/
theorem clientConnect_success (dialler : Option Dialer) (envDialer : Dialer)
    (req : Request) (c : Conn) (resp : Response)
    (hdial : chosenDial dialler envDialer (translateRequest req).url
        (websocketHeaders (translateRequest req)) = ⟨some c, some resp, none⟩) :
    ClientConnect dialler envDialer req =
      (translateRequest req, some c,
       some ⟨Header.set resp.header "Sec-WebSocket-Accept" (generateAcceptKey req)⟩,
       none) ∧
    Header.get (Header.set resp.header "Sec-WebSocket-Accept" (generateAcceptKey req))
        "Sec-WebSocket-Accept"
      = acceptKeyOfNonce (Header.get req.header "Sec-WebSocket-Key") := by
  constructor
  · simp only [ClientConnect, hdial]
    rfl
  · rw [get_set]
    rfl

/-- Witness for C3: a backend response carrying a bogus accept header is
overwritten with the token of the inbound nonce. -/
theorem clientConnect_success_witness :
    ClientConnect none
        (fun _ _ => ⟨some 7, some ⟨[("Sec-Websocket-Accept", ["bogus"])]⟩, none⟩)
        ⟨⟨"https", "example.com", "/"⟩, "example.com",
          [("Sec-Websocket-Key", ["dGhlIHNhbXBsZSBub25jZQ=="])]⟩ =
      (translateRequest ⟨⟨"https", "example.com", "/"⟩, "example.com",
          [("Sec-Websocket-Key", ["dGhlIHNhbXBsZSBub25jZQ=="])]⟩,
       some 7,
       some ⟨Header.set ([("Sec-Websocket-Accept", ["bogus"])] : Header)
          "Sec-WebSocket-Accept"
          (generateAcceptKey ⟨⟨"https", "example.com", "/"⟩, "example.com",
            [("Sec-Websocket-Key", ["dGhlIHNhbXBsZSBub25jZQ=="])]⟩)⟩,
       none) :=
  (clientConnect_success none
    (fun _ _ => ⟨some 7, some ⟨[("Sec-Websocket-Accept", ["bogus"])]⟩, none⟩)
    ⟨⟨"https", "example.com", "/"⟩, "example.com",
      [("Sec-Websocket-Key", ["dGhlIHNhbXBsZSBub25jZQ=="])]⟩
    7 ⟨[("Sec-Websocket-Accept", ["bogus"])]⟩ rfl).1

/-- C4: on a dial failure the connector returns no connection, the
possibly-partial response from the dial attempt, and the dial error
unmodified — there is no retry and no wrapping. -/
theorem clientConnect_failure (dialler : Option Dialer) (envDialer : Dialer)
    (req : Request) (co : Option Conn) (r : Option Response) (e : String)
    (hdial : chosenDial dialler envDialer (translateRequest req).url
        (websocketHeaders (translateRequest req)) = ⟨co, r, some e⟩) :
    ClientConnect dialler envDialer req = (translateRequest req, none, r, some e) := by
  simp only [ClientConnect, hdial]

/-- Witness for C4 on a concrete refused dial. -/
theorem clientConnect_failure_witness :
    ClientConnect none (fun _ _ => ⟨none, none, some "dial tcp: connection refused"⟩)
        ⟨⟨"https", "example.com", "/"⟩, "example.com", []⟩ =
      (translateRequest ⟨⟨"https", "example.com", "/"⟩, "example.com", []⟩,
       none, none, some "dial tcp: connection refused") :=
  clientConnect_failure _ _ _ none none _ rfl

/-- C10: the connector rewrites the caller's request URL scheme in place —
the mutation persists whether or not the dial fails — and leaves every
other part of the request, in particular its headers, unchanged. -/
theorem clientConnect_mutates_scheme_only (dialler : Option Dialer)
    (envDialer : Dialer) (req : Request) :
    (ClientConnect dialler envDialer req).1 = translateRequest req ∧
    (ClientConnect dialler envDialer req).1.url.scheme = ChangeRequestScheme req.url ∧
    (ClientConnect dialler envDialer req).1.header = req.header ∧
    (ClientConnect dialler envDialer req).1.host = req.host ∧
    (ClientConnect dialler envDialer req).1.url.host = req.url.host ∧
    (ClientConnect dialler envDialer req).1.url.path = req.url.path := by
  have h1 : (ClientConnect dialler envDialer req).1 = translateRequest req := by
    cases hdr : chosenDial dialler envDialer (translateRequest req).url
        (websocketHeaders (translateRequest req)) with
    | mk co r er =>
        simp only [ClientConnect, hdr]
        cases er <;> rfl
  refine ⟨h1, ?_, ?_, ?_, ?_, ?_⟩ <;> rw [h1] <;> rfl

/-- C6: the upgrade detector returns true iff the `Connection` header
contains the token `Upgrade` under case-insensitive comma-separated token
matching and the `Upgrade` header equals `websocket` case-insensitively;
false on a plain request without those headers, true with
`Connection: keep-alive, Upgrade` and `Upgrade: websocket`. -/
theorem isWebSocketUpgrade_spec :
    (∀ req : Request,
        IsWebSocketUpgrade req = true ↔
          ((∃ s ∈ (Header.getValues req.header "Connection").getD [],
              ∃ t ∈ splitComma s, lowerStr (trimStr t) = "upgrade") ∧
           lowerStr (Header.get req.header "Upgrade") = "websocket")) ∧
    IsWebSocketUpgrade ⟨⟨"http", "example.com", "/"⟩, "example.com", []⟩ = false ∧
    IsWebSocketUpgrade ⟨⟨"http", "example.com", "/"⟩, "example.com",
        [("Connection", ["keep-alive, Upgrade"]), ("Upgrade", ["websocket"])]⟩
      = true := by
  refine ⟨fun req => ?_, by decide, by decide⟩
  simp [IsWebSocketUpgrade, containsToken, List.any_eq_true, Bool.and_eq_true,
    beq_iff_eq]

end WS
